import Mathlib

/-!
Shallow embedding of the Ai-maa-live-recipe browser application
(src/ai.js, src/camera.js, and the speech module) in Lean 4,
together with proofs about its retry, parsing, capture, speech and
session-step behaviour.

JavaScript strings are modelled as Lean `String`; the handful of JS
string primitives the code uses (`includes`, `toLowerCase`, `trim`,
`split`, `match`) are re-implemented below on `List Char` so that all
definitions are executable and proofs can compute.
-/

namespace JsStr

/-- `listStartsWith hay needle`: `needle` is a prefix of `hay`. -/
def listStartsWith : List Char → List Char → Bool
  | _, [] => true
  | [], _ :: _ => false
  | a :: as, b :: bs => a = b && listStartsWith as bs

/-- `listHasSub hay needle`: `needle` occurs as a contiguous run in `hay`
(JS `String.prototype.includes`). -/
def listHasSub : List Char → List Char → Bool
  | [], needle => needle.isEmpty
  | h :: t, needle => listStartsWith (h :: t) needle || listHasSub t needle

/-- JS `hay.includes(needle)`. -/
def containsSub (hay needle : String) : Bool :=
  listHasSub hay.toList needle.toList

/-- JS `s.toLowerCase()` (ASCII, which is all the repository uses). -/
def jsToLower (s : String) : String :=
  String.mk (s.toList.map Char.toLower)

/-- Whitespace as far as JS `trim` is concerned (ASCII subset). -/
def isWs (c : Char) : Bool :=
  c = ' ' || c = '\t' || c = '\n' || c = '\r' || c = '\x0b' || c = '\x0c'

/-- Trim on a character list: drop whitespace from both ends. -/
def trimList (l : List Char) : List Char :=
  ((l.dropWhile isWs).reverse.dropWhile isWs).reverse

/-- JS `s.trim()`. -/
def jsTrim (s : String) : String :=
  String.mk (trimList s.toList)

/-- First maximal run of decimal digits in `s`
(JS `s.match(/\d+/)` returning the matched text). -/
def firstDigitRun (s : String) : Option String :=
  let rest := s.toList.dropWhile (fun c => !c.isDigit)
  match rest with
  | [] => none
  | _ => some (String.mk (rest.takeWhile Char.isDigit))

/-- Split a character list at every occurrence of `c`
(JS `s.split(sep)` with a single-character separator). -/
def splitOnChar (c : Char) : List Char → List (List Char)
  | [] => [[]]
  | x :: xs =>
    let r := splitOnChar c xs
    if x = c then [] :: r
    else
      match r with
      | [] => [[x]]
      | h :: t => (x :: h) :: t

/-- JS `s.split('\n')`. -/
def jsSplitNl (s : String) : List String :=
  (splitOnChar '\n' s.toList).map String.mk

end JsStr

open JsStr

namespace AIManager

/-- A JavaScript `Error` value: its `name` and `message`. -/
structure JsError where
  name : String
  message : String
deriving Repr, DecidableEq

/-- One part of a Gemini candidate; the `text` field may be absent. -/
structure Part where
  text : Option String
deriving Repr, DecidableEq

/-- A candidate `content`; the `parts` array may be absent. -/
structure Content where
  parts : Option (List Part)
deriving Repr, DecidableEq

/-- One response candidate; `content` may be absent. -/
structure Candidate where
  content : Option Content
deriving Repr, DecidableEq

/-- The JSON body of an HTTP-OK Gemini response: the `candidates`
array may be absent. -/
structure GeminiData where
  candidates : Option (List Candidate)
deriving Repr, DecidableEq

/-- Outcome of the response-text extraction in `callGeminiAPI`
(src/ai.js lines 163-171). -/
inductive ExtractResult where
  | ok (text : String)
  /-- the explicit `throw new Error('Invalid response format from API')` -/
  | invalidFormat
  /-- the implicit TypeError raised by `content.parts[0]` when `parts`
  is absent (the optional chaining sits after the indexing) -/
  | typeErr
deriving Repr, DecidableEq

/-- `data.candidates && data.candidates[0] && data.candidates[0].content`
as an Option: the first candidate's `content` when the chain of checks
passes. -/
def firstContent (d : GeminiData) : Option Content :=
  (d.candidates.bind List.head?).bind Candidate.content

/-- src/ai.js lines 166-171: extract the text from an HTTP-OK response.
If the candidates/content chain is present, evaluates
`data.candidates[0].content.parts[0]?.text || ''` and trims it; note
that when `parts` is absent the indexing `parts[0]` itself throws a
TypeError before the `?.` can guard anything. -/
def extractText (d : GeminiData) : ExtractResult :=
  match firstContent d with
  | none => .invalidFormat
  | some content =>
    match content.parts with
    | none => .typeErr
    | some parts => .ok (jsTrim ((parts.head?.bind Part.text).getD ""))

/-- What one attempt of the `try` block in `callGeminiAPI` observes
from the outside world: the fetch promise rejects (timeout abort,
network failure), or a response arrives that is not ok, or an
HTTP-OK response arrives with some JSON body. -/
inductive AttemptOutcome where
  | thrown (e : JsError)
  | httpError (status : Nat) (body : String)
  | ok (data : GeminiData)
deriving Repr

/-- src/ai.js lines 147-171: the body of the `try` block for one
attempt, as a map from the attempt's outside-world outcome to either
the returned text or the error that reaches the `catch`. -/
def singleAttempt : AttemptOutcome → Except JsError String
  | .thrown e => .error e
  | .httpError status body =>
    .error ⟨"Error", "API Error " ++ toString status ++ ": " ++ body⟩
  | .ok data =>
    match extractText data with
    | .ok t => .ok t
    | .invalidFormat => .error ⟨"Error", "Invalid response format from API"⟩
    | .typeErr =>
      .error ⟨"TypeError", "Cannot read properties of undefined (reading 0)"⟩

/-- src/ai.js lines 182-194: the error rewriting performed once the
retries are exhausted. -/
def mapTerminalError (e : JsError) : JsError :=
  if e.name = "AbortError" then
    ⟨"Error", "Request timeout. Please check your internet connection."⟩
  else if containsSub e.message "API key" then
    ⟨"Error", "Invalid API key. Please check your config.js file."⟩
  else if containsSub e.message "429" then
    ⟨"Error", "Rate limit exceeded. Please wait a moment before trying again."⟩
  else e

/-- src/ai.js lines 110-196, `callGeminiAPI(messages, retryCount)`.
`env i` is the outside-world outcome of the attempt made with
`retryCount = i` (the message list is fixed for the whole call, so it
is left implicit in `env`). Returns the list of delays (ms) awaited
via `this.delay` before each retry, in order, together with the final
result delivered to the caller. `maxRetries` is 3 unless CONFIG
overrides it. -/
def callGeminiAPI (maxRetries : Nat) (env : Nat → AttemptOutcome)
    (retryCount : Nat) : List Nat × Except JsError String :=
  match singleAttempt (env retryCount) with
  | .ok t => ([], .ok t)
  | .error e =>
    if retryCount < maxRetries then
      let r := callGeminiAPI maxRetries env (retryCount + 1)
      (1000 * (retryCount + 1) :: r.1, r.2)
    else
      ([], .error (mapTerminalError e))
termination_by maxRetries - retryCount

/-- The extracted recipe object: src/ai.js expects exactly the fields
name / ingredients / steps / estimatedTime. -/
structure Recipe where
  name : String
  ingredients : List String
  steps : List String
  estimatedTime : String
deriving Repr, DecidableEq

/-- src/ai.js lines 293-317, `getDefaultRecipe`. -/
def getDefaultRecipe : Recipe where
  name := "Vegetable Pulao"
  ingredients :=
    [ "1 cup basmati rice"
    , "2 cups mixed vegetables (carrots, peas, beans)"
    , "1 onion, sliced"
    , "2 tomatoes, chopped"
    , "Spices: turmeric, cumin, garam masala"
    , "2 tbsp oil or ghee"
    , "Salt to taste"
    , "Water as needed" ]
  steps :=
    [ "Wash rice and soak for 15 minutes"
    , "Heat oil in a pressure cooker, add cumin seeds"
    , "Add onions and saut√© until golden brown"
    , "Add tomatoes and cook until soft"
    , "Add vegetables and spices, cook for 2 minutes"
    , "Add rice and water, pressure cook for 2 whistles"
    , "Let pressure release naturally, then serve hot" ]
  estimatedTime := "30"

/-- One iteration of the `for (const line of lines)` loop of
`parseRecipeFallback` (src/ai.js lines 268-287); the accumulator is
the recipe built so far together with `currentSection`. -/
def fallbackStep (acc : Recipe × String) (line : String) : Recipe × String :=
  let recipe := acc.1
  let currentSection := acc.2
  let lowerLine := jsToLower line
  if containsSub lowerLine "ingredient" then
    (recipe, "ingredients")
  else if containsSub lowerLine "step" || containsSub lowerLine "method"
      || containsSub lowerLine "instruction" then
    (recipe, "steps")
  else if containsSub lowerLine "time" then
    match firstDigitRun line with
    | some t => ({ recipe with estimatedTime := t }, currentSection)
    | none => (recipe, currentSection)
  else if currentSection = "ingredients" && jsTrim line ≠ "" then
    ({ recipe with ingredients := recipe.ingredients ++ [jsTrim line] },
      currentSection)
  else if currentSection = "steps" && jsTrim line ≠ "" then
    ({ recipe with steps := recipe.steps ++ [jsTrim line] }, currentSection)
  else if recipe.name = "" || recipe.name = "Custom Dish" then
    ({ recipe with name := jsTrim line }, currentSection)
  else
    (recipe, currentSection)

/-- src/ai.js lines 255-290, `parseRecipeFallback(text)`: the heuristic
line classifier. Lines with an empty trim are filtered out first
(JS `filter(line => line.trim())`). -/
def parseRecipeFallback (text : String) : Recipe :=
  let lines := (jsSplitNl text).filter (fun line => jsTrim line ≠ "")
  (lines.foldl fallbackStep
    ({ name := "Custom Dish", ingredients := [], steps := []
     , estimatedTime := "30" }, "")).1

/-- Opening brace character. -/
def lbrace : Char := Char.ofNat 123

/-- Closing brace character. -/
def rbrace : Char := Char.ofNat 125

/-- `response.match(/\x7b[\s\S]*\x7d/)` (src/ai.js line 239): the greedy
regex matches from the first opening brace to the last closing brace,
provided the close comes after the open; `[\s\S]` also matches
newlines, so line boundaries are irrelevant. -/
def jsonExtract (s : String) : Option String :=
  let cs := s.toList
  match cs.findIdx? (· = lbrace) with
  | none => none
  | some i =>
    match cs.reverse.findIdx? (· = rbrace) with
    | none => none
    | some jr =>
      let j := cs.length - 1 - jr
      if i < j then some (String.mk ((cs.drop i).take (j - i + 1)))
      else none

/-- src/ai.js lines 221-252, `extractRecipe`, given the result of the
underlying `generateResponse` call. `jsonParse` is the host
`JSON.parse` (external to the repository): `some r` when the text
parses to a recipe object, `none` when it throws. A throw lands in
the outer `catch`, which returns the default recipe — the heuristic
parser is not consulted on that path. -/
def extractRecipe (jsonParse : String → Option Recipe)
    (resp : Except JsError String) : Recipe :=
  match resp with
  | .error _ => getDefaultRecipe
  | .ok response =>
    match jsonExtract response with
    | some blk =>
      match jsonParse blk with
      | some recipeData => recipeData
      | none => getDefaultRecipe
    | none => parseRecipeFallback response

/-- The "structured parse" stage of the chain viewed on its own: the
recipe it yields, if any. -/
def structuredParse (jsonParse : String → Option Recipe)
    (response : String) : Option Recipe :=
  (jsonExtract response).bind jsonParse

/-- A recipe has "usable structure" when it carries at least one
ingredient or at least one step. -/
def recipeUsable (r : Recipe) : Bool :=
  !r.ingredients.isEmpty || !r.steps.isEmpty

end AIManager

namespace CameraManager

/-- The observable state of `CameraManager` (src/camera.js lines 4-23):
whether the stream is active, whether the video element was found at
init, the current video dimensions, and the capture statistics. -/
structure CameraState where
  isActive : Bool
  videoElementPresent : Bool
  videoWidth : Nat
  videoHeight : Nat
  lastCaptureTime : Nat
  captureCount : Nat
deriving Repr, DecidableEq

/-- Which message `captureFrame` signals when it returns `null`. -/
inductive CaptureSignal where
  /-- `showError('Camera not active')` -/
  | notActive
  /-- `showHint('Please wait a moment before another capture')` -/
  | tooSoon
  /-- `showError('Video not ready yet')` -/
  | notReady
deriving Repr, DecidableEq

/-- The encoded frame (src/camera.js lines 157-174): the canvas is
`maxWidth` wide and `videoHeight * (maxWidth / videoWidth)` tall, and
the JPEG is encoded at the given quality. The pixel data itself comes
from the external canvas API; the model records the encode inputs. -/
structure Frame where
  videoWidth : Nat
  videoHeight : Nat
  maxWidth : Nat
  canvasHeight : ℚ
  quality : ℚ
deriving Repr, DecidableEq

/-- Result of one `captureFrame` call. -/
inductive CaptureResult where
  | frame (f : Frame)
  | noFrame (sig : CaptureSignal)
deriving Repr, DecidableEq

/-- src/camera.js lines 135-187, `captureFrame(quality, maxWidth)`,
with `now = Date.now()` passed explicitly. Returns the result and the
post-call state. JS float arithmetic on the scale factor is modelled
by exact rationals. -/
def captureFrame (s : CameraState) (now : Nat) (quality : ℚ)
    (maxWidth : Nat) : CaptureResult × CameraState :=
  if !s.isActive || !s.videoElementPresent then
    (.noFrame .notActive, s)
  else if now - s.lastCaptureTime < 6000 then
    (.noFrame .tooSoon, s)
  else if s.videoWidth == 0 || s.videoHeight == 0 then
    (.noFrame .notReady, s)
  else
    let f : Frame :=
      { videoWidth := s.videoWidth
      , videoHeight := s.videoHeight
      , maxWidth := maxWidth
      , canvasHeight := (s.videoHeight * maxWidth : ℚ) / (s.videoWidth : ℚ)
      , quality := quality }
    (.frame f, { s with captureCount := s.captureCount + 1
                      , lastCaptureTime := now })

end CameraManager

namespace SpeechManager

/-- The observable state of `SpeechManager` (speech module lines 4-17):
whether `window.speechSynthesis` exists, the user preference
`AppState.preferences.aiSpeechEnabled`, whether an utterance is
currently playing, its text, and the pending FIFO queue. The
synthesis engine's `onstart` callback is folded into `speak` — on the
single cooperative browser thread the utterance handed to
`synthesis.speak` becomes the current one. -/
structure SpeechState where
  synthSupported : Bool
  aiSpeechEnabled : Bool
  isSpeaking : Bool
  currentUtterance : Option String
  utteranceQueue : List String
deriving Repr, DecidableEq

/-- speech module lines 213-221, `stopSpeaking`: cancel and clear the
queue, but only when an utterance is actually playing. -/
def stopSpeaking (s : SpeechState) : SpeechState :=
  if s.synthSupported && s.isSpeaking then
    { s with isSpeaking := false, currentUtterance := none
           , utteranceQueue := [] }
  else s

/-- speech module lines 140-201, `speak(text)`: no-op when synthesis is
unavailable or AI speech is disabled; no-op when the identical text is
already playing; otherwise stop any ongoing speech and start the new
utterance. -/
def speak (s : SpeechState) (text : String) : SpeechState :=
  if !s.synthSupported || !s.aiSpeechEnabled then s
  else if s.isSpeaking && s.currentUtterance == some text then s
  else
    let s' := stopSpeaking s
    { s' with isSpeaking := true, currentUtterance := some text }

/-- speech module lines 170-182 (the `utterance.onend` handler, and
identically lines 184-197 for `onerror`): mark the utterance finished,
then `shift` the head of the queue and speak it, if any. -/
def utteranceEnd (s : SpeechState) : SpeechState :=
  let s0 := { s with isSpeaking := false, currentUtterance := none }
  match s0.utteranceQueue with
  | [] => s0
  | next :: rest => speak { s0 with utteranceQueue := rest } next

/-- speech module lines 204-210, `queueSpeech(text)`. -/
def queueSpeech (s : SpeechState) (text : String) : SpeechState :=
  if s.isSpeaking then
    { s with utteranceQueue := s.utteranceQueue ++ [text] }
  else speak s text

/-- Replay `n` utterance-finished events and record, in order, the
text dequeued (and handed to `speak`) at each event. -/
def drainSpoken : Nat → SpeechState → List String
  | 0, _ => []
  | n + 1, s =>
    match s.utteranceQueue with
    | [] => []
    | next :: _ => next :: drainSpoken n (utteranceEnd s)

end SpeechManager

/-- The global application state singleton. Its class lives in a file
of the repository that is not under src/ (state.js); the fields below
are the ones src/camera.js reads and writes, with the step-cursor
fields as the spec's data model describes them (spec section 3). -/
structure AppState where
  isCooking : Bool
  isPaused : Bool
  waitingForConfirmation : Bool
  currentStepIndex : Int
  steps : List String
  conversation : List (String × String)
  aiSpeechEnabled : Bool
  cameraEnabled : Bool
  /-- Modelled from the spec: whether "the current step's metadata
  indicates a visual check is warranted" (spec section 4.4), the value
  `AppState.shouldAnalyzeCamera()` returns in the current state. -/
  analyzeCameraHint : Bool
deriving Repr, DecidableEq

namespace AppState

/-- Modelled from the spec: `AppState.nextStep` (state.js is not under
src/). Spec section 3: `currentStepIndex` is clamped, never beyond
the last step; src/camera.js line 643 branches on the returned flag,
and line 998 greys the next button at `totalSteps - 1`, so the cursor
advances exactly when a further step exists. -/
def nextStep (st : AppState) : Bool × AppState :=
  if st.currentStepIndex + 1 < (st.steps.length : Int) then
    (true, { st with currentStepIndex := st.currentStepIndex + 1 })
  else (false, st)

/-- Modelled from the spec: `AppState.prevStep` (state.js is not under
src/). Spec section 3: clamped, never negative; src/camera.js line
634 branches on the returned flag and line 996 greys the previous
button at index 0. -/
def prevStep (st : AppState) : Bool × AppState :=
  if 0 < st.currentStepIndex then
    (true, { st with currentStepIndex := st.currentStepIndex - 1 })
  else (false, st)

/-- Modelled from the spec: `AppState.getCurrentStepText` (state.js is
not under src/): the step text at `currentStepIndex` (spec sections 3
and 4.4), empty when out of range. -/
def getCurrentStepText (st : AppState) : String :=
  st.steps.getD st.currentStepIndex.toNat ""

/-- Modelled from the spec: `AppState.pauseCooking` (state.js is not
under src/) toggles the paused flag (spec section 3 session state). -/
def pauseCooking (st : AppState) : AppState :=
  { st with isPaused := !st.isPaused }

/-- Modelled from the spec: `AppState.addToConversation` (state.js is
not under src/) appends a role/text entry to the append-only
conversation sequence (spec section 3). -/
def addToConversation (st : AppState) (role text : String) : AppState :=
  { st with conversation := st.conversation ++ [(role, text)] }

/-- Modelled from the spec: `AppState.completeCurrentStep` (state.js is
not under src/) "advances currentStepIndex by one (never past the
last step)" (spec section 4.4). -/
def completeCurrentStep (st : AppState) : AppState :=
  (nextStep st).2

/-- Modelled from the spec: `AppState.shouldAnalyzeCamera` (state.js is
not under src/) reports whether the current step warrants a visual
check (spec section 4.4). -/
def shouldAnalyzeCamera (st : AppState) : Bool :=
  st.analyzeCameraHint

end AppState

namespace LiveRecipeAI

open AIManager CameraManager AppState

/-- An externally observable action of the orchestrator during one
`processUserMessage` turn. -/
inductive Effect where
  /-- a text handed to the speech facade (`queueSpeech` via
  `speakAIResponse`) -/
  | narrate (text : String)
  /-- a request issued to the AI Client (`window.generateAIResponse`),
  with the user message and whether a captured frame was attached -/
  | aiRequest (message : String) (withImage : Bool)
  /-- `showIngredients()` -/
  | showIngredients
  /-- `toggleCamera(forceState)` -/
  | cameraToggle (enable : Bool)
  /-- `resetCooking()` was invoked (its `confirm` dialog is external) -/
  | resetRequested
  /-- `showError(msg)` -/
  | showError (msg : String)
deriving Repr, DecidableEq

/-- One pass of the global regex replace `/\[.*?\]/g` (and `/\(.*?\)/g`)
of `speakAIResponse` (src/camera.js lines 956-957), written as a
single left-to-right scan. `buf` holds (reversed) the characters
consumed since an open delimiter that has not yet matched: a dot in a
JS regex does not cross a line terminator, so an open delimiter with
no close before the next newline fails to match there — and, since any
close before that newline would have ended the span, no delimiter
inside the buffer can match either, so flushing the buffer verbatim
and rescanning after the newline agrees with the regex semantics. -/
def stripGo (o c : Char) : Option (List Char) → List Char → List Char
  | none, [] => []
  | some b, [] => b.reverse
  | none, x :: xs =>
    if x = o then stripGo o c (some [x]) xs
    else x :: stripGo o c none xs
  | some b, x :: xs =>
    if x = c then stripGo o c none xs
    else if x = '\n' || x = '\r' then b.reverse ++ x :: stripGo o c none xs
    else stripGo o c (some (x :: b)) xs

/-- Remove every `[...]` span, then every `(...)` span, then every
asterisk, then trim — the clean-up of `speakAIResponse`
(src/camera.js lines 955-959). -/
def cleanForSpeech (s : String) : String :=
  String.mk (JsStr.trimList
    (((stripGo '(' ')' none (stripGo '[' ']' none s.toList)).filter
      (fun x => x ≠ '*'))))

/-- src/camera.js lines 949-964, `speakAIResponse(text)`: the narration
effects it produces (the speech facade is handed the cleaned text only
when AI speech is enabled and the cleaned text is nonempty). -/
def speakAIResponse (st : AppState) (text : String) : List Effect :=
  if !st.aiSpeechEnabled then []
  else
    let cleanText := cleanForSpeech text
    if cleanText ≠ "" then [.narrate cleanText] else []

/-- src/camera.js lines 633-639, `LiveRecipeAI.prevStep`. -/
def prevStepCmd (st : AppState) : AppState × List Effect :=
  let r := AppState.prevStep st
  if r.1 then
    (r.2, speakAIResponse r.2 ("Pichla step: " ++ getCurrentStepText r.2))
  else (r.2, [])

/-- src/camera.js lines 642-648, `LiveRecipeAI.nextStep`. -/
def nextStepCmd (st : AppState) : AppState × List Effect :=
  let r := AppState.nextStep st
  if r.1 then
    (r.2, speakAIResponse r.2 ("Agla step: " ++ getCurrentStepText r.2))
  else (r.2, [])

/-- The command table of `handleSpecialCommands` (src/camera.js lines
792-837), in object insertion order — the order `Object.entries`
iterates. -/
def commandTable : List String :=
  [ "ready", "haan", "nahi", "next", "previous", "pause", "stop"
  , "ingredients", "camera on", "camera off" ]

/-- The handler bound to each command key (src/camera.js lines
792-837). Camera toggling and the reset confirm dialog act on
external collaborators and are recorded as effects. -/
def runCommand (st : AppState) (cmd : String) : AppState × List Effect :=
  if cmd = "ready" then
    let st' := { st with waitingForConfirmation := false }
    (st', speakAIResponse st'
      ("Accha! Chaliye shuru karte hain. " ++ getCurrentStepText st'))
  else if cmd = "haan" then
    let st' := { st with waitingForConfirmation := false }
    (st', speakAIResponse st' ("Theek hai. " ++ getCurrentStepText st'))
  else if cmd = "nahi" then
    (st, speakAIResponse st "Kya problem hai? Batayein main help karun.")
  else if cmd = "next" then nextStepCmd st
  else if cmd = "previous" then prevStepCmd st
  else if cmd = "pause" then (pauseCooking st, [])
  else if cmd = "stop" then (st, [.resetRequested])
  else if cmd = "ingredients" then (st, [.showIngredients])
  else if cmd = "camera on" then (st, [.cameraToggle true])
  else (st, [.cameraToggle false])

/-- src/camera.js lines 791-846, `handleSpecialCommands(message)`:
scan the command table in insertion order and fire the first command
whose key occurs in the (already lowercased) message; `none` when no
command matches (the JS function returns `false`). -/
def handleSpecialCommands (st : AppState) (message : String) :
    Option (AppState × List Effect) :=
  match commandTable.find? (fun c => containsSub message c) with
  | some cmd => some (runCommand st cmd)
  | none => none

/-- src/camera.js lines 849-855, `shouldMarkStepComplete(aiResponse,
userMessage)` (`userMessage` is the lowercased message). -/
def shouldMarkStepComplete (st : AppState) (aiResponse userMessage : String) :
    Bool :=
  let completeKeywords :=
    ["done", "complete", "finished", "hogaya", "ho gaya", "taiyar"]
  ((completeKeywords.any (fun k => containsSub userMessage k))
    || (completeKeywords.any (fun k => containsSub (jsToLower aiResponse) k)))
  && st.waitingForConfirmation

/-- src/camera.js lines 725-788, `processUserMessage(message)`.
`respond` is the AI Client boundary (`window.generateAIResponse`):
`Except.ok` the returned text, `Except.error` a rejection. The camera
facade state and the current clock are threaded explicitly so the two
`captureFrame` call sites behave as in src/camera.js (lines 743-755);
`extractRecipeFromResponse` (lines 858-866) only tests two regexes and
performs no state change, so it contributes nothing here. Returns the
updated app state, the updated camera state, and the effect trace. -/
def processUserMessageBody (st : AppState) (cam : CameraState) (now : Nat)
    (respond : String → Except JsError String)
    (message lowerMessage : String) :
    AppState × CameraState × List Effect :=
    match handleSpecialCommands st lowerMessage with
    | some r => (r.1, cam, r.2)
    | none =>
      let wantsLook := containsSub lowerMessage "dekho"
        || containsSub lowerMessage "look" || containsSub lowerMessage "see"
        || containsSub lowerMessage "check"
      let r1 :=
        if wantsLook && st.cameraEnabled then
          match captureFrame cam now (7 / 10) 800 with
          | (.frame f, c) => (some f, c)
          | (.noFrame _, c) => (none, c)
        else (none, cam)
      let r2 :=
        if r1.1.isNone && shouldAnalyzeCamera st then
          match captureFrame r1.2 now (6 / 10) 600 with
          | (.frame f, c) => (some f, c)
          | (.noFrame _, c) => (none, c)
        else r1
      let imageData := r2.1
      let cam' := r2.2
      match respond message with
      | .ok aiResponse =>
        let st1 := addToConversation st "ai" aiResponse
        let narr := speakAIResponse st1 aiResponse
        let st2 :=
          if shouldMarkStepComplete st1 aiResponse lowerMessage then
            completeCurrentStep st1
          else st1
        (st2, cam', .aiRequest message imageData.isSome :: narr)
      | .error e =>
        let fallbackResponse := "Mujhe samajh nahi aaya. Could you please repeat?"
        let st1 := addToConversation st "ai" fallbackResponse
        let narr := speakAIResponse st1 fallbackResponse
        (st1, cam',
          .aiRequest message imageData.isSome ::
            narr ++ [.showError ("AI Error: " ++ e.message)])

/-- src/camera.js lines 725-788, `processUserMessage(message)`: the
guard on very short messages, then the body above evaluated at
`lowerMessage = message.toLowerCase()`. -/
def processUserMessage (st : AppState) (cam : CameraState) (now : Nat)
    (respond : String → Except JsError String) (message : String) :
    AppState × CameraState × List Effect :=
  if message.length < 2 then (st, cam, [])
  else processUserMessageBody st cam now respond message (jsToLower message)

/-- A repeated "next"/"previous" command, as in the spec's testable
property for the step cursor. -/
inductive StepCmd where
  | next
  | previous
deriving Repr, DecidableEq

/-- One "next"/"previous" command applied to the session state (the
state component of `nextStepCmd` / `prevStepCmd`). -/
def stepOnce (s : AppState) : StepCmd → AppState
  | .next => (nextStepCmd s).1
  | .previous => (prevStepCmd s).1

/-- Apply a sequence of next/previous commands to the session state. -/
def applyStepCmds (st : AppState) (cmds : List StepCmd) : AppState :=
  cmds.foldl stepOnce st

end LiveRecipeAI

/-! ### Concrete instances used by witnesses and counterexamples -/

namespace Inputs

open AIManager CameraManager SpeechManager LiveRecipeAI

/-- An environment whose every attempt yields an HTTP-OK response with
no `candidates` field: the request "fails" through the invalid-format
throw on every attempt. -/
def envAllFail : Nat → AttemptOutcome := fun _ => .ok ⟨none⟩

/-- An environment whose first three attempts reject at the network
layer and whose fourth attempt (retryCount 3, the final retry)
delivers a well-formed response. -/
def envThirdRetryOk : Nat → AttemptOutcome := fun i =>
  if i < 3 then .thrown ⟨"TypeError", "Failed to fetch"⟩
  else .ok ⟨some [⟨some ⟨some [⟨some " Haan, sab theek hai. "⟩]⟩⟩]⟩

/-- An HTTP-OK body whose first candidate has `content` but no
`parts`. -/
def dataNoParts : GeminiData := ⟨some [⟨some ⟨none⟩⟩]⟩

/-- An HTTP-OK body with the full expected structure and a padded
text. -/
def dataPadded : GeminiData := ⟨some [⟨some ⟨some [⟨some "  hi "⟩]⟩⟩]⟩

/-- A model response whose heuristic parse is usable (one ingredient,
two steps) but which also contains a brace block that is not valid
JSON. -/
def respUsableBadJson : String :=
  "Ingredients:\nrice\nSteps:\ncook rice\n\x7bbad\x7d"

/-- An app state mid ingredient confirmation: cooking, waiting for
confirmation, cursor on the first of one step, AI speech enabled. -/
def stReady : AppState :=
  { isCooking := true, isPaused := false, waitingForConfirmation := true
  , currentStepIndex := 0
  , steps := ["Wash rice and soak for 15 minutes"]
  , conversation := [], aiSpeechEnabled := true, cameraEnabled := false
  , analyzeCameraHint := false }

/-- An idle camera. -/
def camIdle : CameraState :=
  { isActive := false, videoElementPresent := true, videoWidth := 0
  , videoHeight := 0, lastCaptureTime := 0, captureCount := 0 }

/-- An active camera that last captured at t = 1000 ms. -/
def camActive : CameraState :=
  { isActive := true, videoElementPresent := true, videoWidth := 640
  , videoHeight := 480, lastCaptureTime := 1000, captureCount := 1 }

/-- A speech facade mid-utterance with two queued texts. -/
def speechBusy : SpeechState :=
  { synthSupported := true, aiSpeechEnabled := true, isSpeaking := true
  , currentUtterance := some "Pehla step"
  , utteranceQueue := ["Dusra step", "Teesra step"] }

/-- An AI Client boundary that always rejects. -/
def respondOffline : String → Except JsError String :=
  fun _ => .error ⟨"TypeError", "Failed to fetch"⟩

end Inputs

/-! ### Helper lemmas -/

namespace JsStr

theorem listStartsWith_map (f : Char → Char) (hay needle : List Char)
    (h : listStartsWith hay needle = true) :
    listStartsWith (hay.map f) (needle.map f) = true := by
  induction needle generalizing hay with
  | nil => simp [listStartsWith]
  | cons b bs ih =>
    cases hay with
    | nil => simp [listStartsWith] at h
    | cons a as =>
      simp only [listStartsWith, Bool.and_eq_true, decide_eq_true_eq] at h
      simp only [List.map_cons, listStartsWith, Bool.and_eq_true,
        decide_eq_true_eq]
      exact ⟨by rw [h.1], ih as h.2⟩

theorem listHasSub_map (f : Char → Char) (hay needle : List Char)
    (h : listHasSub hay needle = true) :
    listHasSub (hay.map f) (needle.map f) = true := by
  induction hay with
  | nil =>
    simp only [listHasSub, List.isEmpty_iff] at h
    simp [h, listHasSub]
  | cons a as ih =>
    simp only [listHasSub, Bool.or_eq_true] at h
    rcases h with h | h
    · simp only [List.map_cons, listHasSub, Bool.or_eq_true]
      exact Or.inl (by simpa using listStartsWith_map f (a :: as) needle h)
    · simp only [List.map_cons, listHasSub, Bool.or_eq_true]
      exact Or.inr (ih h)

theorem listStartsWith_length (hay needle : List Char)
    (h : listStartsWith hay needle = true) :
    needle.length ≤ hay.length := by
  induction needle generalizing hay with
  | nil => simp
  | cons b bs ih =>
    cases hay with
    | nil => simp [listStartsWith] at h
    | cons a as =>
      simp only [listStartsWith, Bool.and_eq_true] at h
      simpa using ih as h.2

theorem listHasSub_length (hay needle : List Char)
    (h : listHasSub hay needle = true) :
    needle.length ≤ hay.length := by
  induction hay with
  | nil =>
    simp only [listHasSub, List.isEmpty_iff] at h
    simp [h]
  | cons a as ih =>
    simp only [listHasSub, Bool.or_eq_true] at h
    rcases h with h | h
    · exact listStartsWith_length _ _ h
    · exact le_trans (ih h) (by simp)

theorem containsSub_toLower_ready (s : String)
    (h : containsSub s "ready" = true) :
    containsSub (jsToLower s) "ready" = true := by
  have hmap := listHasSub_map Char.toLower s.toList "ready".toList h
  have hneedle : "ready".toList.map Char.toLower = "ready".toList := by decide
  rw [hneedle] at hmap
  show listHasSub (jsToLower s).toList "ready".toList = true
  have hlist : (jsToLower s).toList = s.toList.map Char.toLower := rfl
  rw [hlist]
  exact hmap

theorem containsSub_ready_length (s : String)
    (h : containsSub s "ready" = true) :
    5 ≤ s.length := by
  have hle := listHasSub_length s.toList "ready".toList h
  have h5 : "ready".toList.length = 5 := by decide
  have hlen : s.toList.length = s.length := rfl
  omega

end JsStr

namespace AIManager

theorem callGeminiAPI_fail_step (m : Nat) (env : Nat → AttemptOutcome)
    (r : Nat) (e : JsError) (he : singleAttempt (env r) = Except.error e)
    (hr : r < m) :
    callGeminiAPI m env r =
      (1000 * (r + 1) :: (callGeminiAPI m env (r + 1)).1,
        (callGeminiAPI m env (r + 1)).2) := by
  rw [callGeminiAPI, he]
  simp [hr]

theorem callGeminiAPI_fail_last (m : Nat) (env : Nat → AttemptOutcome)
    (r : Nat) (e : JsError) (he : singleAttempt (env r) = Except.error e)
    (hr : ¬ r < m) :
    callGeminiAPI m env r = ([], Except.error (mapTerminalError e)) := by
  rw [callGeminiAPI, he]
  simp [hr]

theorem callGeminiAPI_attempt_ok (m : Nat) (env : Nat → AttemptOutcome)
    (r : Nat) (t : String) (ht : singleAttempt (env r) = Except.ok t) :
    callGeminiAPI m env r = ([], Except.ok t) := by
  rw [callGeminiAPI, ht]

end AIManager

/-! ### Claim theorems -/

open JsStr AIManager CameraManager SpeechManager AppState LiveRecipeAI Inputs

/-- C1: when every attempt of the underlying HTTP request fails (for
any reason — network rejection, HTTP error, timeout abort, or invalid
response structure), `callGeminiAPI` with `maxRetries = 3` retries
exactly 3 times after the initial attempt, waiting 1s × attempt number
between consecutive attempts (a strictly increasing delay schedule),
and surfaces a terminal failure to the caller only after the final
retry fails: if the final retry instead succeeds, the caller receives
that success after the same three delays. -/
theorem callGeminiAPI_retries_then_fails
    (env envOk : Nat → AttemptOutcome) (t : String)
    (hfail : ∀ i, i ≤ 3 → ∃ e, singleAttempt (env i) = Except.error e)
    (hfail3 : ∀ i, i < 3 → ∃ e, singleAttempt (envOk i) = Except.error e)
    (hok : singleAttempt (envOk 3) = Except.ok t) :
    (callGeminiAPI 3 env 0).1 = [1000 * 1, 1000 * 2, 1000 * 3] ∧
    List.Chain' (fun a b => a < b) (callGeminiAPI 3 env 0).1 ∧
    (∃ e, (callGeminiAPI 3 env 0).2 = Except.error (mapTerminalError e) ∧
      singleAttempt (env 3) = Except.error e) ∧
    callGeminiAPI 3 envOk 0 = ([1000 * 1, 1000 * 2, 1000 * 3], Except.ok t) := by
  obtain ⟨e0, h0⟩ := hfail 0 (by omega)
  obtain ⟨e1, h1⟩ := hfail 1 (by omega)
  obtain ⟨e2, h2⟩ := hfail 2 (by omega)
  obtain ⟨e3, h3⟩ := hfail 3 (by omega)
  obtain ⟨f0, g0⟩ := hfail3 0 (by omega)
  obtain ⟨f1, g1⟩ := hfail3 1 (by omega)
  obtain ⟨f2, g2⟩ := hfail3 2 (by omega)
  have hrun : callGeminiAPI 3 env 0 =
      ([1000 * 1, 1000 * 2, 1000 * 3], Except.error (mapTerminalError e3)) := by
    rw [callGeminiAPI_fail_step 3 env 0 e0 h0 (by omega),
      callGeminiAPI_fail_step 3 env 1 e1 h1 (by omega),
      callGeminiAPI_fail_step 3 env 2 e2 h2 (by omega),
      callGeminiAPI_fail_last 3 env 3 e3 h3 (by omega)]
  have hrunOk : callGeminiAPI 3 envOk 0 =
      ([1000 * 1, 1000 * 2, 1000 * 3], Except.ok t) := by
    rw [callGeminiAPI_fail_step 3 envOk 0 f0 g0 (by omega),
      callGeminiAPI_fail_step 3 envOk 1 f1 g1 (by omega),
      callGeminiAPI_fail_step 3 envOk 2 f2 g2 (by omega),
      callGeminiAPI_attempt_ok 3 envOk 3 t hok]
  have hd : (callGeminiAPI 3 env 0).1 = [1000 * 1, 1000 * 2, 1000 * 3] := by
    rw [hrun]
  refine ⟨hd, by rw [hd]; norm_num [List.chain'_cons], ⟨e3, by rw [hrun], h3⟩,
    hrunOk⟩

/-- Witness for C1 at concrete environments: one that always returns a
structurally invalid HTTP-OK body, and one whose first three attempts
reject at the network layer while the final retry succeeds. -/
theorem callGeminiAPI_retries_then_fails_witness :
    (callGeminiAPI 3 envAllFail 0).1 = [1000 * 1, 1000 * 2, 1000 * 3] ∧
    callGeminiAPI 3 envThirdRetryOk 0 =
      ([1000 * 1, 1000 * 2, 1000 * 3], Except.ok "Haan, sab theek hai.") := by
  have h := callGeminiAPI_retries_then_fails envAllFail envThirdRetryOk
    "Haan, sab theek hai."
    (fun i _ => ⟨⟨"Error", "Invalid response format from API"⟩, rfl⟩)
    (fun i hi => ⟨⟨"TypeError", "Failed to fetch"⟩, by
      simp [envThirdRetryOk, hi, singleAttempt]⟩)
    rfl
  exact ⟨h.1, h.2.2.2⟩

/-- C2 (counterexample): it is not the case that the default recipe is
returned only when both the structured parse and the heuristic parse
produce no usable structure — on a response carrying a brace block
that fails to parse, `extractRecipe` returns the default recipe even
though the heuristic parser would have produced a usable recipe (the
heuristic is never consulted on that path, src/ai.js lines 239-251). -/
theorem extractRecipe_default_despite_usable_heuristic :
    ¬ (∀ (jp : String → Option Recipe) (respText : String),
        extractRecipe jp (Except.ok respText) = getDefaultRecipe →
        structuredParse jp respText = none ∧
        recipeUsable (parseRecipeFallback respText) = false) := by
  intro h
  have h2 := (h (fun _ => none) respUsableBadJson (by decide)).2
  exact absurd h2 (by decide)

/-- C2 (amended): `extractRecipe` attempts the structured JSON parse of
the model response first, and its result is returned when it
succeeds; the heuristic line-classifier runs exactly when the
successful response contains no brace block, and its result is then
returned whether usable or not; the default recipe is returned exactly
when the response request fails or when a brace block is found whose
JSON parse throws — in which case the heuristic is skipped. -/
theorem extractRecipe_fallback_chain (jp : String → Option Recipe)
    (e : JsError) (respText : String) :
    (extractRecipe jp (Except.error e) = getDefaultRecipe) ∧
    (jsonExtract respText = none →
      extractRecipe jp (Except.ok respText) = parseRecipeFallback respText) ∧
    (∀ blk r, jsonExtract respText = some blk → jp blk = some r →
      extractRecipe jp (Except.ok respText) = r) ∧
    (∀ blk, jsonExtract respText = some blk → jp blk = none →
      extractRecipe jp (Except.ok respText) = getDefaultRecipe) := by
  refine ⟨rfl, ?_, ?_, ?_⟩
  · intro hje
    simp [extractRecipe, hje]
  · intro blk r hje hjp
    simp [extractRecipe, hje, hjp]
  · intro blk hje hjp
    simp [extractRecipe, hje, hjp]

/-- Witness for the amended C2 at a concrete response with no brace
block: the heuristic result is returned. -/
theorem extractRecipe_fallback_chain_witness :
    extractRecipe (fun _ => none) (Except.ok "Ingredients:\nrice") =
      parseRecipeFallback "Ingredients:\nrice" :=
  (extractRecipe_fallback_chain (fun _ => none) ⟨"Error", "e"⟩
    "Ingredients:\nrice").2.1 (by decide)

/-- The "expected structure" of C3: candidates, a first candidate, its
content, and the content's parts are all present. -/
def expectedStructurePresent (d : GeminiData) : Bool :=
  match firstContent d with
  | some ct => ct.parts.isSome
  | none => false

/-- C3 (counterexample): `callGeminiAPI` does not fail with the
InvalidResponseFormat error exactly when the expected structure
(candidates[0].content and its parts) is absent — when `content` is
present but `parts` is absent, the code instead throws a TypeError at
`content.parts[0]` (src/ai.js line 167). -/
theorem extractText_invalidFormat_iff_structure_absent_false :
    ¬ (∀ d : GeminiData,
        extractText d = ExtractResult.invalidFormat ↔
          expectedStructurePresent d = false) := by
  intro h
  have h2 := (h dataNoParts).mpr (by decide)
  exact absurd h2 (by decide)

/-- C3 (amended): for every HTTP-OK response, the extraction fails with
the InvalidResponseFormat error exactly when `candidates`, the first
candidate, or its `content` is absent; when `content` is present but
`parts` is absent, it instead raises a TypeError; when `parts` is
present, it returns the first part's text (empty when absent) with
surrounding whitespace trimmed. -/
theorem extractText_characterization (d : GeminiData) :
    (extractText d = ExtractResult.invalidFormat ↔ firstContent d = none) ∧
    (∀ ct, firstContent d = some ct → ct.parts = none →
      extractText d = ExtractResult.typeErr) ∧
    (∀ ct ps, firstContent d = some ct → ct.parts = some ps →
      extractText d =
        ExtractResult.ok (jsTrim ((ps.head?.bind Part.text).getD ""))) := by
  refine ⟨?_, ?_, ?_⟩
  · rcases hfc : firstContent d with _ | ct
    · simp [extractText, hfc]
    · rcases hp : ct.parts with _ | ps <;> simp [extractText, hfc, hp]
  · intro ct hfc hp
    simp [extractText, hfc, hp]
  · intro ct ps hfc hp
    simp [extractText, hfc, hp]

/-- Witness for the amended C3 at a concrete response whose first
part's text is padded with whitespace: the returned text is trimmed. -/
theorem extractText_characterization_witness :
    extractText dataPadded = ExtractResult.ok "hi" := by
  have h := (extractText_characterization dataPadded).2.2
    ⟨some [⟨some "  hi "⟩]⟩ [⟨some "  hi "⟩] (by decide) (by decide)
  rw [h]
  decide

/-- Inversion of a successful capture: all guards passed and the stats
were updated. -/
theorem captureFrame_frame_inv (s : CameraState) (now : Nat) (q : ℚ)
    (mw : Nat) (f : Frame)
    (h : (captureFrame s now q mw).1 = CaptureResult.frame f) :
    s.isActive = true ∧ s.videoElementPresent = true ∧
    ¬ now - s.lastCaptureTime < 6000 ∧ s.videoWidth ≠ 0 ∧ s.videoHeight ≠ 0 ∧
    (captureFrame s now q mw).2 =
      { s with captureCount := s.captureCount + 1
             , lastCaptureTime := now } := by
  unfold captureFrame at h ⊢
  split_ifs at h ⊢ with h1 h2 h3
  all_goals simp at h
  simp at h1 h3
  exact ⟨h1.1, h1.2, h2, h3.1, h3.2, rfl⟩

/-- C4: if `captureFrame` succeeds at time `t`, every call within the
6-second cooldown window returns no frame and signals the too-soon
condition (leaving the state untouched), while a call made once the
cooldown has elapsed returns an encoded frame and moves the
last-capture timestamp to the new capture time. -/
theorem captureFrame_cooldown (s : CameraState) (t t' : Nat) (q q' : ℚ)
    (mw mw' : Nat) (f : Frame)
    (hcap : (captureFrame s t q mw).1 = CaptureResult.frame f) :
    (t' - t < 6000 →
      captureFrame (captureFrame s t q mw).2 t' q' mw' =
        (CaptureResult.noFrame CaptureSignal.tooSoon,
          (captureFrame s t q mw).2)) ∧
    (6000 ≤ t' - t →
      (∃ f', (captureFrame (captureFrame s t q mw).2 t' q' mw').1 =
        CaptureResult.frame f') ∧
      (captureFrame (captureFrame s t q mw).2 t' q' mw').2.lastCaptureTime =
        t') := by
  obtain ⟨ha, hv, _, hw, hh, hs2⟩ := captureFrame_frame_inv s t q mw f hcap
  rw [hs2]
  constructor
  · intro hlt
    unfold captureFrame
    simp [ha, hv, hlt]
  · intro hge
    unfold captureFrame
    simp [ha, hv, hw, hh, Nat.not_lt.mpr hge]

/-- Witness for C4: with an active 640×480 camera that captured at
t = 10000, a capture at t = 12000 is rejected too-soon and a capture
at t = 16000 succeeds and restamps the cooldown. -/
theorem captureFrame_cooldown_witness :
    (captureFrame (captureFrame camActive 10000 (7 / 10) 800).2 12000
        (7 / 10) 800).1 = CaptureResult.noFrame CaptureSignal.tooSoon ∧
    (captureFrame (captureFrame camActive 10000 (7 / 10) 800).2 16000
        (7 / 10) 800).2.lastCaptureTime = 16000 := by
  have hcap : (captureFrame camActive 10000 (7 / 10) 800).1 =
      CaptureResult.frame
        { videoWidth := 640, videoHeight := 480, maxWidth := 800
        , canvasHeight := 600, quality := 7 / 10 } := by
    unfold captureFrame camActive
    norm_num
  have h := captureFrame_cooldown camActive 10000 12000 (7 / 10) (7 / 10)
    800 800 _ hcap
  have h' := captureFrame_cooldown camActive 10000 16000 (7 / 10) (7 / 10)
    800 800 _ hcap
  refine ⟨?_, (h'.2 (by omega)).2⟩
  rw [h.1 (by omega)]

/-- C10: whenever `captureFrame` returns no frame — camera inactive,
cooldown not elapsed, or zero video dimensions — the camera state
(in particular `lastCaptureTime` and `captureCount`) is left
completely unchanged. -/
theorem captureFrame_reject_preserves_state (s : CameraState) (now : Nat)
    (q : ℚ) (mw : Nat) (sig : CaptureSignal)
    (hrej : (captureFrame s now q mw).1 = CaptureResult.noFrame sig) :
    (captureFrame s now q mw).2 = s := by
  unfold captureFrame at hrej ⊢
  split_ifs at hrej ⊢ <;> simp_all

/-- Witness for C10: an inactive camera at t = 0 rejects a capture and
its state is unchanged. -/
theorem captureFrame_reject_preserves_state_witness :
    (captureFrame camIdle 0 (7 / 10) 800).2 = camIdle :=
  captureFrame_reject_preserves_state camIdle 0 (7 / 10) 800
    CaptureSignal.notActive (by decide)

/-- C5: while the facade is mid-utterance, `speak` with text literally
identical to the playing utterance's text is a no-op (the state is
unchanged, so the current utterance keeps playing and no new utterance
is created); `speak` with different text cancels the current
utterance and starts the new text in its place. -/
theorem speak_identical_noop_different_interrupts (s : SpeechState)
    (t t' : String) (hspeak : s.isSpeaking = true)
    (hcur : s.currentUtterance = some t) :
    speak s t = s ∧
    (s.synthSupported = true → s.aiSpeechEnabled = true → t' ≠ t →
      speak s t' =
        { synthSupported := s.synthSupported
        , aiSpeechEnabled := s.aiSpeechEnabled, isSpeaking := true
        , currentUtterance := some t', utteranceQueue := [] }) := by
  constructor
  · unfold speak
    split_ifs with h1 h2
    · rfl
    · rfl
    · exact absurd (by simp [hspeak, hcur]) h2
  · intro hsupp hen hne
    have hne' : t ≠ t' := fun he => hne he.symm
    unfold speak stopSpeaking
    simp [hsupp, hen, hspeak, hcur, hne']

/-- Witness for C5 on a busy facade: repeating the playing text is a
no-op; a different text replaces it and clears the queue. -/
theorem speak_identical_noop_different_interrupts_witness :
    speak speechBusy "Pehla step" = speechBusy ∧
    speak speechBusy "Naya step" =
      { synthSupported := true, aiSpeechEnabled := true, isSpeaking := true
      , currentUtterance := some "Naya step", utteranceQueue := [] } := by
  have h := speak_identical_noop_different_interrupts speechBusy
    "Pehla step" "Naya step" (by decide) (by decide)
  exact ⟨h.1, h.2 rfl rfl (by decide)⟩

/-- One utterance-finished event with a nonempty queue, on a supported
and enabled facade: the head is dequeued and spoken. -/
theorem utteranceEnd_cons (s : SpeechState) (x : String) (rest : List String)
    (hsupp : s.synthSupported = true) (hen : s.aiSpeechEnabled = true)
    (hq : s.utteranceQueue = x :: rest) :
    utteranceEnd s =
      { synthSupported := s.synthSupported
      , aiSpeechEnabled := s.aiSpeechEnabled, isSpeaking := true
      , currentUtterance := some x, utteranceQueue := rest } := by
  unfold utteranceEnd speak stopSpeaking
  simp [hq, hsupp, hen]

/-- Draining all utterance-finished events speaks exactly the queue,
in order. -/
theorem drainSpoken_eq_queue (n : Nat) :
    ∀ s : SpeechState, s.synthSupported = true → s.aiSpeechEnabled = true →
    s.utteranceQueue.length = n → drainSpoken n s = s.utteranceQueue := by
  induction n with
  | zero =>
    intro s _ _ hlen
    rw [List.length_eq_zero] at hlen
    simp [drainSpoken, hlen]
  | succ m ih =>
    intro s hsupp hen hlen
    rcases hq : s.utteranceQueue with _ | ⟨x, rest⟩
    · rw [hq] at hlen
      simp at hlen
    · rw [hq] at hlen
      simp only [List.length_cons, Nat.succ.injEq] at hlen
      have hend := utteranceEnd_cons s x rest hsupp hen hq
      have h1 : (utteranceEnd s).synthSupported = true := by
        rw [hend]; exact hsupp
      have h2 : (utteranceEnd s).aiSpeechEnabled = true := by
        rw [hend]; exact hen
      have h3 : (utteranceEnd s).utteranceQueue.length = m := by
        rw [hend]; exact hlen
      have hrec := ih (utteranceEnd s) h1 h2 h3
      simp only [drainSpoken]
      rw [hq]
      show x :: drainSpoken m (utteranceEnd s) = x :: rest
      rw [hrec, hend]

/-- C6: `queueSpeech` appends the text to the utterance queue when an
utterance is playing and speaks it immediately otherwise; when the
active utterance finishes, exactly the head of the queue is dequeued
and becomes the (single) playing utterance with the rest pending; and
replaying all finish events speaks the queued texts in exactly FIFO
order. -/
theorem queueSpeech_fifo (s : SpeechState) (t : String)
    (hsupp : s.synthSupported = true) (hen : s.aiSpeechEnabled = true) :
    (s.isSpeaking = true →
      queueSpeech s t = { s with utteranceQueue := s.utteranceQueue ++ [t] }) ∧
    (s.isSpeaking = false → queueSpeech s t = speak s t) ∧
    (∀ x rest, s.utteranceQueue = x :: rest →
      (utteranceEnd s).isSpeaking = true ∧
      (utteranceEnd s).currentUtterance = some x ∧
      (utteranceEnd s).utteranceQueue = rest) ∧
    drainSpoken s.utteranceQueue.length s = s.utteranceQueue := by
  refine ⟨?_, ?_, ?_, drainSpoken_eq_queue s.utteranceQueue.length s hsupp hen
    rfl⟩
  · intro hsp
    simp [queueSpeech, hsp]
  · intro hsp
    simp [queueSpeech, hsp]
  · intro x rest hq
    rw [utteranceEnd_cons s x rest hsupp hen hq]
    exact ⟨rfl, rfl, rfl⟩

/-- Witness for C6 on a busy facade with two queued texts: the append
behaviour and the FIFO drain at the concrete queue. -/
theorem queueSpeech_fifo_witness :
    queueSpeech speechBusy "Chautha step" =
      { speechBusy with
        utteranceQueue := ["Dusra step", "Teesra step", "Chautha step"] } ∧
    drainSpoken 2 speechBusy = ["Dusra step", "Teesra step"] := by
  have h := queueSpeech_fifo speechBusy "Chautha step" rfl rfl
  exact ⟨h.1 rfl, h.2.2.2⟩

/-- C7: `stopSpeaking`, invoked while an utterance is playing, cancels
the current utterance and empties the entire queue at once, so no
previously queued text is spoken afterwards: draining any number of
finish events from the stopped state speaks nothing. -/
theorem stopSpeaking_clears_queue (s : SpeechState)
    (hsupp : s.synthSupported = true) (hsp : s.isSpeaking = true) :
    stopSpeaking s =
      { s with isSpeaking := false, currentUtterance := none
             , utteranceQueue := [] } ∧
    ∀ n, drainSpoken n (stopSpeaking s) = [] := by
  have hstop : stopSpeaking s =
      { s with isSpeaking := false, currentUtterance := none
             , utteranceQueue := [] } := by
    simp [stopSpeaking, hsupp, hsp]
  refine ⟨hstop, ?_⟩
  intro n
  rw [hstop]
  cases n with
  | zero => rfl
  | succ m => simp [drainSpoken]

/-- Witness for C7 on a busy facade with two queued texts. -/
theorem stopSpeaking_clears_queue_witness :
    stopSpeaking speechBusy =
      { synthSupported := true, aiSpeechEnabled := true, isSpeaking := false
      , currentUtterance := none, utteranceQueue := [] } ∧
    drainSpoken 2 (stopSpeaking speechBusy) = [] := by
  have h := stopSpeaking_clears_queue speechBusy rfl rfl
  exact ⟨h.1, h.2 2⟩

/-- One step command keeps the cursor in range and the step list
unchanged. -/
theorem stepOnce_preserves (s : AppState) (c : StepCmd)
    (h0 : 0 ≤ s.currentStepIndex)
    (h1 : s.currentStepIndex < (s.steps.length : Int)) :
    0 ≤ (stepOnce s c).currentStepIndex ∧
    (stepOnce s c).currentStepIndex < ((stepOnce s c).steps.length : Int) ∧
    (stepOnce s c).steps = s.steps := by
  cases c with
  | next =>
    simp only [stepOnce]
    unfold nextStepCmd AppState.nextStep
    split_ifs with h <;> simp_all <;> omega
  | previous =>
    simp only [stepOnce]
    unfold prevStepCmd AppState.prevStep
    split_ifs with h <;> simp_all <;> omega

/-- C8: for every sequence of repeated "next"/"previous" commands the
step cursor satisfies `0 ≤ currentStepIndex < step count`: advancing
clamps at the last step and going back clamps at 0 (the step list
itself never changes). -/
theorem currentStepIndex_clamped (st : AppState) (cmds : List StepCmd)
    (h0 : 0 ≤ st.currentStepIndex)
    (h1 : st.currentStepIndex < (st.steps.length : Int)) :
    0 ≤ (applyStepCmds st cmds).currentStepIndex ∧
    (applyStepCmds st cmds).currentStepIndex <
      ((applyStepCmds st cmds).steps.length : Int) ∧
    (applyStepCmds st cmds).steps = st.steps := by
  induction cmds generalizing st with
  | nil => exact ⟨h0, h1, rfl⟩
  | cons c cs ih =>
    obtain ⟨g0, g1, gs⟩ := stepOnce_preserves st c h0 h1
    obtain ⟨k0, k1, ks⟩ := ih (stepOnce st c) g0 g1
    exact ⟨k0, k1, by rw [show applyStepCmds st (c :: cs) =
      applyStepCmds (stepOnce st c) cs from rfl, ks, gs]⟩

/-- Witness for C8: from the first of one step, next-next-previous-
previous keeps the cursor in range. -/
theorem currentStepIndex_clamped_witness :
    0 ≤ (applyStepCmds stReady
      [StepCmd.next, StepCmd.next, StepCmd.previous,
        StepCmd.previous]).currentStepIndex ∧
    (applyStepCmds stReady
      [StepCmd.next, StepCmd.next, StepCmd.previous,
        StepCmd.previous]).currentStepIndex <
      ((applyStepCmds stReady
        [StepCmd.next, StepCmd.next, StepCmd.previous,
          StepCmd.previous]).steps.length : Int) := by
  have h := currentStepIndex_clamped stReady
    [StepCmd.next, StepCmd.next, StepCmd.previous, StepCmd.previous]
    (by decide) (by decide)
  exact ⟨h.1, h.2.1⟩

/-- A scan that started with no pending open delimiter distributes over
a prefix containing no open delimiter. -/
theorem stripGo_none_no_open (o c : Char) (p l : List Char)
    (hp : ∀ x ∈ p, ¬ x = o) :
    stripGo o c none (p ++ l) = p ++ stripGo o c none l := by
  induction p with
  | nil => rfl
  | cons a as ih =>
    have ha : ¬ a = o := hp a (by simp)
    rw [List.cons_append]
    simp only [stripGo, ha, if_false, if_neg ha]
    rw [ih (fun x hx => hp x (by simp [hx]))]
    simp

/-- Trimming a list that contains a non-whitespace character cannot
give the empty list. -/
theorem trimList_ne_nil (l : List Char) (x : Char) (hx : x ∈ l)
    (hxw : JsStr.isWs x = false) : JsStr.trimList l ≠ [] := by
  unfold JsStr.trimList
  intro h
  rw [List.reverse_eq_nil_iff, List.dropWhile_eq_nil_iff] at h
  have hx2 : x ∈ l.dropWhile JsStr.isWs := by
    rcases (List.mem_append.mp
      (by rw [List.takeWhile_append_dropWhile]; exact hx :
        x ∈ l.takeWhile JsStr.isWs ++ l.dropWhile JsStr.isWs)) with hmem | hmem
    · exact absurd (List.mem_takeWhile_imp hmem) (by simp [hxw])
    · exact hmem
  have := h x (List.mem_reverse.mpr hx2)
  simp [hxw] at this

/-- Cleaning a text that starts with the fixed confirmation prefix
never yields the empty string: the prefix has no brackets, parens,
asterisks or leading whitespace, so its head survives every stage. -/
theorem cleanForSpeech_accha_ne (s : String) :
    cleanForSpeech ("Accha! Chaliye shuru karte hain. " ++ s) ≠ "" := by
  have hdata : ("Accha! Chaliye shuru karte hain. " ++ s).toList
      = "Accha! Chaliye shuru karte hain. ".toList ++ s.toList := rfl
  unfold cleanForSpeech
  rw [hdata]
  rw [stripGo_none_no_open '[' ']' "Accha! Chaliye shuru karte hain. ".toList
    s.toList (by decide)]
  rw [stripGo_none_no_open '(' ')' "Accha! Chaliye shuru karte hain. ".toList
    (stripGo '[' ']' none s.toList) (by decide)]
  rw [List.filter_append]
  rw [show List.filter (fun x => x ≠ '*')
    "Accha! Chaliye shuru karte hain. ".toList
    = "Accha! Chaliye shuru karte hain. ".toList by decide]
  intro h
  have hl := congrArg String.data h
  exact absurd hl (trimList_ne_nil _ 'A'
    (List.mem_append_left _ (by decide)) (by decide))

/-- The speech facade path of `speakAIResponse` never issues an AI
request. -/
theorem speakAIResponse_no_aiRequest (st : AppState) (text m : String)
    (b : Bool) : Effect.aiRequest m b ∉ speakAIResponse st text := by
  unfold speakAIResponse
  split_ifs <;> simp

/-- C9: a user message containing the substring "ready", processed
while `waitingForConfirmation` is set, clears the flag (and changes
nothing else in the app state), leaves the camera untouched, produces
exactly the speech-facade narration of the confirmation sentence
followed by the current step's text (which is the first step's text
when the cursor is at 0), and issues no request to the AI Client. -/
theorem processUserMessage_ready_shortcircuit (st : AppState)
    (cam : CameraState) (now : Nat)
    (respond : String → Except JsError String) (message : String)
    (hready : containsSub message "ready" = true)
    (hwait : st.waitingForConfirmation = true) :
    (processUserMessage st cam now respond message).1 =
      { st with waitingForConfirmation := false } ∧
    (processUserMessage st cam now respond message).2.1 = cam ∧
    (processUserMessage st cam now respond message).2.2 =
      speakAIResponse { st with waitingForConfirmation := false }
        ("Accha! Chaliye shuru karte hain. " ++ getCurrentStepText st) ∧
    (st.aiSpeechEnabled = true →
      (processUserMessage st cam now respond message).2.2 =
        [Effect.narrate (cleanForSpeech
          ("Accha! Chaliye shuru karte hain. " ++ getCurrentStepText st))]) ∧
    (∀ m b, Effect.aiRequest m b ∉
      (processUserMessage st cam now respond message).2.2) ∧
    (st.currentStepIndex = 0 →
      getCurrentStepText st = (st.steps.head?).getD "") := by
  have hlow : containsSub (jsToLower message) "ready" = true :=
    containsSub_toLower_ready message hready
  have hlen5 : 5 ≤ message.length := containsSub_ready_length message hready
  have hnotshort : ¬ message.length < 2 := by omega
  have hcmd : handleSpecialCommands st (jsToLower message) =
      some (runCommand st "ready") := by
    unfold handleSpecialCommands commandTable
    rw [List.find?_cons_of_pos _ hlow]
  have hrun : runCommand st "ready" =
      ({ st with waitingForConfirmation := false },
        speakAIResponse { st with waitingForConfirmation := false }
          ("Accha! Chaliye shuru karte hain. " ++
            getCurrentStepText { st with waitingForConfirmation := false })) := by
    unfold runCommand
    simp
  have hmain : processUserMessage st cam now respond message =
      ({ st with waitingForConfirmation := false }, cam,
        speakAIResponse { st with waitingForConfirmation := false }
          ("Accha! Chaliye shuru karte hain. " ++
            getCurrentStepText { st with waitingForConfirmation := false })) := by
    unfold processUserMessage processUserMessageBody
    rw [if_neg hnotshort, hcmd, hrun]
  have hstep : getCurrentStepText { st with waitingForConfirmation := false }
      = getCurrentStepText st := rfl
  rw [hstep] at hmain
  refine ⟨by rw [hmain], by rw [hmain], by rw [hmain], ?_, ?_, ?_⟩
  · intro hen
    rw [hmain]
    show speakAIResponse { st with waitingForConfirmation := false }
      ("Accha! Chaliye shuru karte hain. " ++ getCurrentStepText st) = _
    unfold speakAIResponse
    rw [if_neg (by simp [hen])]
    rw [if_pos (cleanForSpeech_accha_ne (getCurrentStepText st))]
  · intro m b
    rw [hmain]
    exact speakAIResponse_no_aiRequest _ _ m b
  · intro hidx
    unfold getCurrentStepText
    rw [hidx]
    cases st.steps with
    | nil => rfl
    | cons a t => rfl

/-- Witness for C9: the message "I am ready", processed mid
confirmation with one recipe step, clears the flag and narrates the
first step without any AI request. -/
theorem processUserMessage_ready_shortcircuit_witness :
    ((processUserMessage stReady camIdle 0 respondOffline
      "I am ready").1).waitingForConfirmation = false ∧
    (processUserMessage stReady camIdle 0 respondOffline "I am ready").2.2 =
      [Effect.narrate
        "Accha! Chaliye shuru karte hain. Wash rice and soak for 15 minutes"] := by
  have h := processUserMessage_ready_shortcircuit stReady camIdle 0
    respondOffline "I am ready" (by decide) (by decide)
  constructor
  · rw [h.1]
  · rw [h.2.2.2.1 (by decide)]
    decide
